import Mathlib

/-!
Verification of the k-bucket contact store from `drogulus/dht/kbucket.py`.

The Python class `KBucket` is embedded as a Lean structure with explicit
state passing: every mutating method becomes a function from the old state
to a pair of an optional error and the new state (a Python `raise` happens
before any mutation in this code, so the error case pairs the error with
the unchanged state).  Python `list.remove` removes the first element that
compares equal, which is `List.eraseP`; `in` is `List.any`; `list.index`
followed by indexing is `List.find?`.

The `Contact` class, the capacity constant `K` (from `drogulus.constants`)
and the converter `hex_to_long` (from `drogulus.utils`) are collaborators
that are not part of the package under verification; they are modelled from
the spec where noted.
-/

/-- Modelled from the spec: the `Contact` class (external collaborator, not in
`src/`) is "a value type with a stable identifier comparable for equality";
"equality is by ID".  The `info` field stands for the rest of the contact
record (address, port, ...), which equality ignores. -/
structure Contact where
  id : Nat
  info : Nat
deriving DecidableEq

/-- The failure conditions: `Full` is the `KBucketFull` exception raised by
`add_contact`; `NotFound` is the `ValueError` raised by `list.index` /
`list.remove` inside `get_contact` / `remove_contact`. -/
inductive KBErr where
  | Full
  | NotFound
deriving DecidableEq

/-- State of `KBucket` (`kbucket.py` lines 51-63): range bounds over the
512-bit unsigned identifier space, the ordered `_contacts` list
(least-recently-seen at the head), and the `last_accessed` timestamp. -/
structure KBucket where
  range_min : Nat
  range_max : Nat
  contacts : List Contact
  last_accessed : Nat
deriving DecidableEq

/-- `KBucket.__init__` (lines 51-63): stores the bounds, starts with an empty
contact list and `last_accessed = 0`. -/
def KBucket.init (range_min range_max : Nat) : KBucket :=
  { range_min := range_min, range_max := range_max, contacts := [], last_accessed := 0 }

/-- Modelled from the spec: the capacity constant `K` of `drogulus.constants`
is not in `src/`; the spec directs that it be "treated as injected
configuration", so the operations below take it as a parameter.  The
reference value is 20. -/
def referenceK : Nat := 20

/-- `KBucket.add_contact` (lines 65-80).  If a contact with the same id is
present (`contact in self._contacts`, equality by id), remove that first
occurrence and append the new instance at the tail; else if there is room,
append; else raise `KBucketFull`, mutating nothing. -/
def KBucket.add_contact (K : Nat) (kb : KBucket) (contact : Contact) : Option KBErr × KBucket :=
  if kb.contacts.any (fun x => x.id == contact.id) then
    (none, { kb with contacts := (kb.contacts.eraseP (fun x => x.id == contact.id)) ++ [contact] })
  else if kb.contacts.length < K then
    (none, { kb with contacts := kb.contacts ++ [contact] })
  else
    (some KBErr.Full, kb)

/-- `KBucket.get_contact` (lines 82-89): `self._contacts.index(id)` finds the
first element equal (by id) to the argument and the method returns it;
`ValueError` (`NotFound`) if no element matches.  The lookup target may be a
bare id or a full `Contact`; either way comparison is by id, so the target is
embedded as the id. -/
def KBucket.get_contact (kb : KBucket) (i : Nat) : Except KBErr Contact :=
  match kb.contacts.find? (fun x => x.id == i) with
  | some c => Except.ok c
  | none => Except.error KBErr.NotFound

/-- `KBucket.get_contacts` (lines 91-122).  `count <= 0` means all contacts;
the slice `self._contacts[:current_len]` or `[:count]` is taken; then, if the
excluded contact (a `Contact` or bare id, compared by id, `None` meaning no
exclusion) occurs in the already-truncated slice, its first occurrence is
removed from the copy. -/
def KBucket.get_contacts (kb : KBucket) (count : Int) (exclude_contact : Option Nat) :
    List Contact :=
  let current_len := kb.contacts.length
  let count2 : Int := if count ≤ 0 then (current_len : Int) else count
  let contact_list :=
    if kb.contacts.isEmpty then ([] : List Contact)
    else if (current_len : Int) < count2 then kb.contacts.take current_len
    else kb.contacts.take count2.toNat
  match exclude_contact with
  | none => contact_list
  | some ex =>
      if contact_list.any (fun x => x.id == ex) then
        contact_list.eraseP (fun x => x.id == ex)
      else
        contact_list

/-- `KBucket.remove_contact` (lines 124-128): `self._contacts.remove(id)`
removes the first element equal (by id) to the target, raising `ValueError`
(`NotFound`) when none matches. -/
def KBucket.remove_contact (kb : KBucket) (i : Nat) : Option KBErr × KBucket :=
  if kb.contacts.any (fun x => x.id == i) then
    (none, { kb with contacts := kb.contacts.eraseP (fun x => x.id == i) })
  else
    (some KBErr.NotFound, kb)

/-- Modelled from the spec: `hex_to_long` of `drogulus.utils` is not in
`src/`; §6 calls it "a pure function converting an external hex-string
identifier to the internal unsigned integer domain", i.e. base-16 parsing. -/
def hexDigitVal (c : Char) : Nat :=
  if '0' ≤ c ∧ c ≤ '9' then c.toNat - '0'.toNat
  else if 'a' ≤ c ∧ c ≤ 'f' then c.toNat - 'a'.toNat + 10
  else if 'A' ≤ c ∧ c ≤ 'F' then c.toNat - 'A'.toNat + 10
  else 0

/-- Modelled from the spec: see `hexDigitVal`. -/
def hex_to_long (s : String) : Nat :=
  s.data.foldl (fun acc c => 16 * acc + hexDigitVal c) 0

/-- `KBucket.key_in_range` (lines 130-138), integer branch: the half-open
range test `self.range_min <= key < self.range_max`. -/
def KBucket.key_in_range (kb : KBucket) (key : Nat) : Bool :=
  decide (kb.range_min ≤ key) && decide (key < kb.range_max)

/-- `KBucket.key_in_range` (lines 130-138), string branch: a `str` key is
first converted with `hex_to_long`, then the same range test is applied. -/
def KBucket.key_in_range_hex (kb : KBucket) (key : String) : Bool :=
  kb.key_in_range (hex_to_long key)

/-- `KBucket.__len__` (lines 140-144). -/
def KBucket.size (kb : KBucket) : Nat :=
  kb.contacts.length

/-- The representation invariants of the store (spec §3): at most `K`
contacts, and no two contacts share an id. -/
def KBucket.inv (K : Nat) (kb : KBucket) : Prop :=
  kb.contacts.length ≤ K ∧ (kb.contacts.map Contact.id).Nodup

/-- Follows the spec's words (§4.1 `getContacts`): "the first
`min(count, size)` contacts in current order", with `count ≤ 0` treated as
`size`.  Used to compare `KBucket.get_contacts` against the spec. -/
def specSlice (kb : KBucket) (count : Int) : List Contact :=
  kb.contacts.take (if count ≤ 0 then kb.contacts.length else min count.toNat kb.contacts.length)

/-- Concrete contacts and buckets used by the closed witness theorems. -/
def cA : Contact := ⟨1, 10⟩

/-- See `cA`. -/
def cB : Contact := ⟨2, 20⟩

/-- See `cA`. -/
def cC : Contact := ⟨3, 30⟩

/-- A re-sighting of the node of `cA`: same id, different info. -/
def cA2 : Contact := ⟨1, 11⟩

/-- A full (capacity 2) bucket holding `cA` then `cB`. -/
def kbAB : KBucket := { range_min := 0, range_max := 100, contacts := [cA, cB], last_accessed := 0 }

instance instDecidableInv (K : Nat) (kb : KBucket) : Decidable (kb.inv K) :=
  inferInstanceAs (Decidable (kb.contacts.length ≤ K ∧ (kb.contacts.map Contact.id).Nodup))

/-! Helper lemmas about the id-matching predicate, shared by several claims. -/

theorem any_id_eq_false {l : List Contact} {i : Nat} (h : ∀ x ∈ l, x.id ≠ i) :
    l.any (fun x => x.id == i) = false := by
  simp only [List.any_eq_false, beq_iff_eq]
  exact h

theorem any_id_eq_true {l : List Contact} {i : Nat} (h : ∃ x ∈ l, x.id = i) :
    l.any (fun x => x.id == i) = true := by
  simp only [List.any_eq_true, beq_iff_eq]
  exact h

/-- C1: on a store whose size equals `K`, adding a contact whose id is not
present fails with `Full` and returns the state unchanged: same contacts,
same order, same size. -/
theorem claim_C1_full_add_fails (K : Nat) (kb : KBucket) (c : Contact)
    (hfull : kb.contacts.length = K)
    (habs : ∀ x ∈ kb.contacts, x.id ≠ c.id) :
    kb.add_contact K c = (some KBErr.Full, kb) := by
  have h1 := any_id_eq_false habs
  have h2 : ¬ kb.contacts.length < K := by omega
  simp [KBucket.add_contact, h1, h2]

/-- Witness for C1 at the concrete full bucket `kbAB` and the new contact
`cC`. -/
theorem claim_C1_witness : kbAB.add_contact 2 cC = (some KBErr.Full, kbAB) :=
  claim_C1_full_add_fails 2 kbAB cC (by decide) (by decide)

/-- C4: on a store with size below `K`, adding a contact whose id is not
present succeeds, appends it at the tail after the existing contacts in
order, and grows the size by exactly one. -/
theorem claim_C4_add_new_appends (K : Nat) (kb : KBucket) (c : Contact)
    (hroom : kb.contacts.length < K)
    (habs : ∀ x ∈ kb.contacts, x.id ≠ c.id) :
    (kb.add_contact K c).1 = none ∧
    (kb.add_contact K c).2.contacts = kb.contacts ++ [c] ∧
    (kb.add_contact K c).2.contacts.length = kb.contacts.length + 1 := by
  have h1 := any_id_eq_false habs
  simp [KBucket.add_contact, h1, hroom]

/-- Witness for C4 at the concrete bucket `kbAB` with room (`K = 3`). -/
theorem claim_C4_witness :
    (kbAB.add_contact 3 cC).1 = none ∧
    (kbAB.add_contact 3 cC).2.contacts = kbAB.contacts ++ [cC] ∧
    (kbAB.add_contact 3 cC).2.contacts.length = kbAB.contacts.length + 1 :=
  claim_C4_add_new_appends 3 kbAB cC (by decide) (by decide)

/-- C8: `key_in_range` gives the same answer on a hex-string key as on the
integer it converts to via the keyspace utility `hex_to_long`: the string is
converted first and then compared against the same bounds. -/
theorem claim_C8_hex_int_agree (kb : KBucket) (k : Nat) (h : String)
    (hrel : hex_to_long h = k) :
    kb.key_in_range_hex h = kb.key_in_range k := by
  unfold KBucket.key_in_range_hex
  rw [hrel]

/-- Witness for C8 at the string "ff" and the integer 255. -/
theorem claim_C8_witness :
    hex_to_long "ff" = 255 ∧
    (KBucket.init 0 256).key_in_range_hex "ff" = (KBucket.init 0 256).key_in_range 255 :=
  ⟨by decide, claim_C8_hex_int_agree (KBucket.init 0 256) 255 "ff" (by decide)⟩

/-- C9: `last_accessed` is 0 after construction and is not changed by
`add_contact` or `remove_contact`, whether they succeed or fail.  The read
operations (`get_contact`, `get_contacts`, `key_in_range`, `size`) are
embedded as pure functions of the state and return no state, so they cannot
modify the field. -/
theorem claim_C9_last_accessed (rmin rmax K : Nat) (kb : KBucket) (c : Contact) (i : Nat) :
    (KBucket.init rmin rmax).last_accessed = 0 ∧
    ((kb.add_contact K c).2).last_accessed = kb.last_accessed ∧
    ((kb.remove_contact i).2).last_accessed = kb.last_accessed := by
  refine ⟨rfl, ?_, ?_⟩
  · unfold KBucket.add_contact
    split
    · rfl
    · split <;> rfl
  · unfold KBucket.remove_contact
    split <;> rfl

/-- Counterexample to C6 as stated: the claim asserts
`keyInRange(rangeMin) = true` for every store, but on the degenerate store
with `range_min = range_max = 5` (construction never validates the bounds)
the code returns `false` on `range_min`. -/
theorem claim_C6_counterexample :
    ¬ ((KBucket.init 5 5).key_in_range ((KBucket.init 5 5).range_min) = true) := by decide

/-- C6 amended: `key_in_range key` is true iff
`range_min ≤ key < range_max`; `key_in_range range_max` is always false; and
`key_in_range range_min` is true whenever `range_min < range_max`
(i.e. whenever the store's range is nonempty). -/
theorem claim_C6_range_semantics (kb : KBucket) (key : Nat) :
    (kb.key_in_range key = true ↔ kb.range_min ≤ key ∧ key < kb.range_max) ∧
    kb.key_in_range kb.range_max = false ∧
    (kb.range_min < kb.range_max → kb.key_in_range kb.range_min = true) := by
  unfold KBucket.key_in_range
  refine ⟨by simp, by simp, fun h => by simp [Nat.le_refl, h]⟩

/-- Witness for C6 amended: the bucket over `[0, 10)` accepts its own lower
bound. -/
theorem claim_C6_witness : (KBucket.init 0 10).key_in_range 0 = true :=
  (claim_C6_range_semantics (KBucket.init 0 10) 0).2.2 (by decide)

/-- C3: re-adding a contact whose id is already stored succeeds, removes the
stored occurrence of that id from its position and appends the new instance
at the tail, preserving the size and the relative order of all other
contacts.  No size precondition appears: this holds also when the store is
full, because `add_contact` checks membership before capacity. -/
theorem claim_C3_readd_moves_to_tail (K : Nat) (kb : KBucket) (c : Contact)
    (hmem : ∃ x ∈ kb.contacts, x.id = c.id) :
    (kb.add_contact K c).1 = none ∧
    (kb.add_contact K c).2.contacts.length = kb.contacts.length ∧
    ∃ pre old post,
      kb.contacts = pre ++ old :: post ∧ old.id = c.id ∧
      (∀ y ∈ pre, y.id ≠ c.id) ∧
      (kb.add_contact K c).2.contacts = (pre ++ post) ++ [c] := by
  have hany := any_id_eq_true hmem
  obtain ⟨x, hx, hxid⟩ := hmem
  have hpx : (x.id == c.id) = true := by simpa using hxid
  obtain ⟨a, l₁, l₂, hl₁, hpa, heq, herase⟩ :=
    List.exists_of_eraseP (p := fun y => y.id == c.id) hx hpx
  have hcontacts : (kb.add_contact K c).2.contacts =
      (kb.contacts.eraseP (fun y => y.id == c.id)) ++ [c] := by
    simp [KBucket.add_contact, hany]
  have hres : (kb.add_contact K c).1 = none := by
    simp [KBucket.add_contact, hany]
  refine ⟨hres, ?_, l₁, a, l₂, heq, by simpa using hpa, ?_, ?_⟩
  · rw [hcontacts, herase, heq]
    simp
  · intro y hy
    simpa using hl₁ y hy
  · rw [hcontacts, herase]

/-- Witness for C3: re-adding `cA2` (same id as `cA`, fresh info) to the
full bucket `kbAB`. -/
theorem claim_C3_witness :
    (kbAB.add_contact 2 cA2).1 = none ∧
    (kbAB.add_contact 2 cA2).2.contacts.length = kbAB.contacts.length ∧
    ∃ pre old post,
      kbAB.contacts = pre ++ old :: post ∧ old.id = cA2.id ∧
      (∀ y ∈ pre, y.id ≠ cA2.id) ∧
      (kbAB.add_contact 2 cA2).2.contacts = (pre ++ post) ++ [cA2] :=
  claim_C3_readd_moves_to_tail 2 kbAB cA2 ⟨cA, by decide, by decide⟩

/-- C7: when no stored contact has the target id, `get_contact` fails with
`NotFound` and `remove_contact` fails with `NotFound`, returning the state
with contents, order and size exactly as before; when some stored contact
has the id, `remove_contact` succeeds and the store has exactly one fewer
element. -/
theorem claim_C7_not_found (kb : KBucket) (i : Nat) :
    ((∀ x ∈ kb.contacts, x.id ≠ i) →
      kb.get_contact i = Except.error KBErr.NotFound ∧
      kb.remove_contact i = (some KBErr.NotFound, kb)) ∧
    ((∃ x ∈ kb.contacts, x.id = i) →
      (kb.remove_contact i).1 = none ∧
      (kb.remove_contact i).2.contacts.length + 1 = kb.contacts.length) := by
  constructor
  · intro habs
    have h1 := any_id_eq_false habs
    constructor
    · have hfind : kb.contacts.find? (fun x => x.id == i) = none := by
        simp only [List.find?_eq_none, beq_iff_eq]
        exact habs
      simp [KBucket.get_contact, hfind]
    · simp [KBucket.remove_contact, h1]
  · intro hmem
    have h1 := any_id_eq_true hmem
    obtain ⟨x, hx, hxid⟩ := hmem
    have hpx : (x.id == i) = true := by simpa using hxid
    have hpos : 0 < kb.contacts.length := List.length_pos_of_mem hx
    have hlen := List.length_eraseP_of_mem (p := fun y => y.id == i) hx hpx
    constructor
    · simp [KBucket.remove_contact, h1]
    · have h2 : (kb.remove_contact i).2.contacts =
          kb.contacts.eraseP (fun y => y.id == i) := by
        simp [KBucket.remove_contact, h1]
      rw [h2, hlen]
      omega

/-- Witness for C7: id 9 is absent from `kbAB` (failure case), id 1 is
present (success case). -/
theorem claim_C7_witness :
    (kbAB.get_contact 9 = Except.error KBErr.NotFound ∧
      kbAB.remove_contact 9 = (some KBErr.NotFound, kbAB)) ∧
    ((kbAB.remove_contact 1).1 = none ∧
      (kbAB.remove_contact 1).2.contacts.length + 1 = kbAB.contacts.length) :=
  ⟨(claim_C7_not_found kbAB 9).1 (by decide),
   (claim_C7_not_found kbAB 1).2 ⟨cA, by decide, by decide⟩⟩

/-! Helper lemmas about ids after an erasure, shared by C2 and C10. -/

theorem map_id_eraseP (l : List Contact) (i : Nat) :
    (l.eraseP (fun x => x.id == i)).map Contact.id =
      (l.map Contact.id).eraseP (fun n => n == i) := by
  rw [List.eraseP_map]
  rfl

theorem not_mem_map_id_eraseP {l : List Contact} (hnd : (l.map Contact.id).Nodup) (i : Nat) :
    i ∉ (l.eraseP (fun x => x.id == i)).map Contact.id := by
  rw [map_id_eraseP, ← List.erase_eq_eraseP']
  exact hnd.not_mem_erase

theorem nodup_map_append_single {l : List Contact} {c : Contact}
    (hnd : (l.map Contact.id).Nodup) (hni : c.id ∉ l.map Contact.id) :
    ((l ++ [c]).map Contact.id).Nodup := by
  rw [List.map_append]
  refine List.Nodup.append hnd (List.nodup_singleton _) ?_
  intro a ha hb
  rw [List.map_singleton, List.mem_singleton] at hb
  subst hb
  exact hni ha

theorem not_id_of_any_eq_false {l : List Contact} {i : Nat}
    (h : l.any (fun x => x.id == i) = false) : ∀ x ∈ l, x.id ≠ i := by
  simpa only [List.any_eq_false, beq_iff_eq] using h

/-- C2: the representation invariants — between 0 and `K` contacts, no two
sharing an id — hold for a freshly constructed store and are preserved by
`add_contact` and `remove_contact` whether they succeed or fail.  The read
operations (`get_contact`, `get_contacts`, `key_in_range`, `size`) are
embedded as pure functions returning no state, so they preserve every state
property trivially. -/
theorem claim_C2_invariants (K rmin rmax : Nat) (kb : KBucket) (c : Contact) (i : Nat)
    (hinv : kb.inv K) :
    (KBucket.init rmin rmax).inv K ∧
    ((kb.add_contact K c).2).inv K ∧
    ((kb.remove_contact i).2).inv K := by
  obtain ⟨hlen, hnd⟩ := hinv
  refine ⟨⟨by simp [KBucket.init], by simp [KBucket.init]⟩, ?_, ?_⟩
  · cases hany : kb.contacts.any (fun x => x.id == c.id) with
    | true =>
      have hc2 : (kb.add_contact K c).2.contacts =
          (kb.contacts.eraseP (fun x => x.id == c.id)) ++ [c] := by
        simp [KBucket.add_contact, hany]
      obtain ⟨x, hx, hpx⟩ : ∃ x ∈ kb.contacts, (x.id == c.id) = true := by
        simpa only [List.any_eq_true] using hany
      constructor
      · rw [hc2, List.length_append,
          List.length_eraseP_of_mem (p := fun y => y.id == c.id) hx hpx]
        have hpos : 0 < kb.contacts.length := List.length_pos_of_mem hx
        simp
        omega
      · rw [hc2]
        refine nodup_map_append_single ?_ ?_
        · rw [map_id_eraseP]
          exact hnd.eraseP _
        · exact not_mem_map_id_eraseP hnd c.id
    | false =>
      cases hroom : decide (kb.contacts.length < K) with
      | true =>
        have hroom' : kb.contacts.length < K := of_decide_eq_true hroom
        have hc2 : (kb.add_contact K c).2.contacts = kb.contacts ++ [c] := by
          simp [KBucket.add_contact, hany, hroom']
        have habs := not_id_of_any_eq_false hany
        constructor
        · rw [hc2, List.length_append]
          simp
          omega
        · rw [hc2]
          refine nodup_map_append_single hnd ?_
          simp only [List.mem_map, not_exists, not_and]
          intro y hy hyid
          exact habs y hy hyid
      | false =>
        have hroom' : ¬ kb.contacts.length < K := of_decide_eq_false hroom
        have hc2 : (kb.add_contact K c).2 = kb := by
          simp [KBucket.add_contact, hany, hroom']
        rw [hc2]
        exact ⟨hlen, hnd⟩
  · cases hany : kb.contacts.any (fun x => x.id == i) with
    | true =>
      have hc2 : (kb.remove_contact i).2.contacts =
          kb.contacts.eraseP (fun x => x.id == i) := by
        simp [KBucket.remove_contact, hany]
      constructor
      · rw [hc2]
        exact le_trans (List.length_eraseP_le _) hlen
      · rw [hc2, map_id_eraseP]
        exact hnd.eraseP _
    | false =>
      have hc2 : (kb.remove_contact i).2 = kb := by
        simp [KBucket.remove_contact, hany]
      rw [hc2]
      exact ⟨hlen, hnd⟩

/-- Witness for C2 at capacity 2: the full bucket `kbAB`, adding the new
contact `cC` (which fails full) and removing id 1. -/
theorem claim_C2_witness :
    (KBucket.init 0 100).inv 2 ∧
    ((kbAB.add_contact 2 cC).2).inv 2 ∧
    ((kbAB.remove_contact 1).2).inv 2 :=
  claim_C2_invariants 2 0 100 kbAB cC 1 (by decide)

/-- C10: `add_contact` is idempotent on success.  On a store whose contacts
have pairwise distinct ids (the store invariant), if adding `c` succeeds
then immediately adding `c` again also succeeds and returns exactly the same
state as the first call alone. -/
theorem claim_C10_add_idempotent (K : Nat) (kb : KBucket) (c : Contact)
    (hnd : (kb.contacts.map Contact.id).Nodup)
    (hok : (kb.add_contact K c).1 = none) :
    (kb.add_contact K c).2.add_contact K c = (none, (kb.add_contact K c).2) := by
  cases hany : kb.contacts.any (fun x => x.id == c.id) with
  | true =>
    have hs : (kb.add_contact K c).2 =
        { kb with contacts := kb.contacts.eraseP (fun x => x.id == c.id) ++ [c] } := by
      simp [KBucket.add_contact, hany]
    have hno' : ∀ x ∈ kb.contacts.eraseP (fun y => y.id == c.id), ¬ (x.id == c.id) = true := by
      intro x hx hxe
      refine not_mem_map_id_eraseP hnd c.id ?_
      rw [beq_iff_eq] at hxe
      exact List.mem_map.2 ⟨x, hx, hxe⟩
    have hany2 : ((kb.contacts.eraseP (fun x => x.id == c.id)) ++ [c]).any
        (fun x => x.id == c.id) = true := by
      simp
    have herase2 : ((kb.contacts.eraseP (fun x => x.id == c.id)) ++ [c]).eraseP
        (fun x => x.id == c.id) = kb.contacts.eraseP (fun x => x.id == c.id) := by
      rw [List.eraseP_append_right _ hno']
      simp
    rw [hs]
    simp [KBucket.add_contact, hany2, herase2]
  | false =>
    have hroom : kb.contacts.length < K := by
      by_contra hK
      simp [KBucket.add_contact, hany, hK] at hok
    have hs : (kb.add_contact K c).2 = { kb with contacts := kb.contacts ++ [c] } := by
      simp [KBucket.add_contact, hany, hroom]
    have hno' : ∀ x ∈ kb.contacts, ¬ (x.id == c.id) = true := by
      intro x hx
      simpa using not_id_of_any_eq_false hany x hx
    have hany2 : (kb.contacts ++ [c]).any (fun x => x.id == c.id) = true := by
      simp
    have herase2 : (kb.contacts ++ [c]).eraseP (fun x => x.id == c.id) = kb.contacts := by
      rw [List.eraseP_append_right _ hno']
      simp
    rw [hs]
    simp [KBucket.add_contact, hany2, herase2]

/-- Witness for C10: re-touching `cB` in the full bucket `kbAB` (a
successful add), then doing it again. -/
theorem claim_C10_witness :
    (kbAB.add_contact 2 cB).2.add_contact 2 cB = (none, (kbAB.add_contact 2 cB).2) :=
  claim_C10_add_idempotent 2 kbAB cB (by decide) (by decide)

/-! Helper lemmas relating `get_contacts` to the spec's slice, used by C5. -/

theorem get_contacts_none_eq_slice (kb : KBucket) (count : Int) :
    kb.get_contacts count none = specSlice kb count := by
  unfold KBucket.get_contacts specSlice
  by_cases hemp : kb.contacts.isEmpty
  · have h0 : kb.contacts = [] := by simpa [List.isEmpty_iff] using hemp
    simp [h0]
  · by_cases hc : count ≤ 0
    · simp [hemp, hc]
    · by_cases hlt : (kb.contacts.length : Int) < count
      · have hmin : min count.toNat kb.contacts.length = kb.contacts.length := by omega
        simp [hemp, hc, hlt, hmin]
      · have hmin : min count.toNat kb.contacts.length = count.toNat := by omega
        simp [hemp, hc, hlt, hmin]

theorem get_contacts_some_eq (kb : KBucket) (count : Int) (ex : Nat) :
    kb.get_contacts count (some ex) =
      (if (kb.get_contacts count none).any (fun x => x.id == ex) then
        (kb.get_contacts count none).eraseP (fun x => x.id == ex)
      else kb.get_contacts count none) := rfl

theorem get_contacts_some_eq_slice (kb : KBucket) (count : Int) (ex : Nat) :
    kb.get_contacts count (some ex) =
      (if (specSlice kb count).any (fun x => x.id == ex) then
        (specSlice kb count).eraseP (fun x => x.id == ex)
      else specSlice kb count) := by
  rw [get_contacts_some_eq, get_contacts_none_eq_slice]

/-- C5: `get_contacts` is total and returns the first `min(count, size)`
contacts in stored (least-recently-seen-first) order, with `count ≤ 0`
treated as `size` (that slice is `specSlice`); an excluded id matching
nothing in that truncated slice leaves it unchanged, while an excluded id
matching an element of the slice drops exactly that element with no
replacement pulled in, so the result is one element shorter. -/
theorem claim_C5_get_contacts (kb : KBucket) (count : Int) (ex : Nat) :
    kb.get_contacts count none = specSlice kb count ∧
    ((∀ x ∈ specSlice kb count, x.id ≠ ex) →
      kb.get_contacts count (some ex) = specSlice kb count) ∧
    (∀ pre old post, specSlice kb count = pre ++ old :: post → old.id = ex →
      (∀ y ∈ pre, y.id ≠ ex) →
      kb.get_contacts count (some ex) = pre ++ post ∧
      (pre ++ post).length + 1 = (specSlice kb count).length) := by
  refine ⟨get_contacts_none_eq_slice kb count, ?_, ?_⟩
  · intro h
    have h1 := any_id_eq_false h
    rw [get_contacts_some_eq_slice, h1]
    simp
  · intro pre old post hdec hold hpre
    have hmem : old ∈ specSlice kb count := by
      rw [hdec]
      simp
    have hany : (specSlice kb count).any (fun x => x.id == ex) = true :=
      any_id_eq_true ⟨old, hmem, hold⟩
    have hpre' : ∀ y ∈ pre, ¬ ((fun x => x.id == ex) y = true) := by
      intro y hy
      simpa using hpre y hy
    constructor
    · rw [get_contacts_some_eq_slice, hany]
      simp only [if_true]
      rw [hdec, List.eraseP_append_right _ hpre',
        List.eraseP_cons_of_pos (by simpa using hold)]
    · rw [hdec]
      simp only [List.length_append, List.length_cons]
      omega

/-- Witness for C5 on `kbAB`: a plain prefix request, an exclusion that
matches nothing, and an exclusion hitting the head of the slice. -/
theorem claim_C5_witness :
    (kbAB.get_contacts 1 none = specSlice kbAB 1) ∧
    (kbAB.get_contacts 2 (some 3) = specSlice kbAB 2) ∧
    (kbAB.get_contacts 2 (some 1) = [] ++ [cB] ∧
      (([] : List Contact) ++ [cB]).length + 1 = (specSlice kbAB 2).length) :=
  ⟨(claim_C5_get_contacts kbAB 1 0).1,
   (claim_C5_get_contacts kbAB 2 3).2.1 (by decide),
   (claim_C5_get_contacts kbAB 2 1).2.2 [] cA [cB] (by decide) (by decide) (by decide)⟩
